import Mathlib

/-!
# CoralKM — shallow embedding and verification of spec claims

This file embeds, in Lean 4, the parts of the CoralKM repository that the
frozen claims C1..C10 are about:

* the in-memory guardian store (`MemoryGuardianStore` in the repository),
* the CoralKM protocol handler branches of `DCCoralKMProtocolV01.handle`
  (namespace-recovery-request, guardian-remove,
  guardian-verification-challenge-response),
* the protocol engine error path (`DIDCommProtocolMessageHandler.handle`,
  catch branch),
* the wallet's share manager (`Wallet._updateGuardianShares`) and recovery
  coordinator (`Wallet._onMessage`, GUARDIAN_RELEASE_SHARE branch),
* the AEAD helper (`EncryptionManager.encrypt` / `decrypt`),
* problem-report comment processing
  (`DCReportProblemProtocolV2._processComment`).

Modelling conventions, stated once:

* JS `Map` objects are modelled as association lists with `Map.set`
  replace-or-append semantics (insertion order preserved, as in JS).
* JS `Date` values and ISO date strings are modelled by their integer
  timestamps (`Int`, milliseconds).
* `crypto.subtle` AES-GCM and the external `shamir-secret-sharing` library
  are not repository code; they are taken as function parameters, with their
  documented contracts as explicit hypotheses where a claim needs them.
* SHA-256 (used by `MemoryGuardianStore._hashKey` to key shares) is
  modelled as an injective function of its input string, so the store key
  for `(gateway, nid)` is the pre-image string `gateway ++ ":" ++ nid`
  exactly as built by the source.
* base64url transport encodings (`toBase64Url`/`fromBase64Url`), which are
  mutually inverse injections, are collapsed: envelope fields hold the raw
  byte sequences.
* JS string falsiness (`!value` true for `""` and `undefined`) is modelled
  explicitly wherever the source relies on it (`assertMessageFieldDefined`,
  `message.threadId || message.id`, `aad ? ... : undefined`).
-/

/-! ## Association-list maps (JS `Map` semantics) -/

/-- Lookup in a JS-`Map`-like association list (`Map.get`). -/
def alGet {β : Type} (k : String) : List (String × β) → Option β
  | [] => none
  | (k', v) :: rest => if k' = k then some v else alGet k rest

/-- Embeds `Map.set`: replace the value at an existing key, else append. -/
def alSet {β : Type} (k : String) (v : β) : List (String × β) → List (String × β)
  | [] => [(k, v)]
  | (k', v') :: rest => if k' = k then (k, v) :: rest else (k', v') :: alSet k v rest

/-- Embeds `Map.delete`: remove the entry of a key, if any. -/
def alDel {β : Type} (k : String) : List (String × β) → List (String × β)
  | [] => []
  | (k', v') :: rest => if k' = k then rest else (k', v') :: alDel k rest

/-! ## CoralKM data model (`types.ts`, guardian store interfaces) -/

/-- Embeds `RequestPolicy` — `"GRANTED" | "DENIED"`. -/
inductive RequestPolicy
  | GRANTED
  | DENIED
deriving DecidableEq, Repr

/-- Embeds `INamespace { id, gateway_did }`. -/
structure INamespace where
  id : String
  gateway_did : String
deriving DecidableEq, Repr

/-- Embeds `ICoralKMGuardianPolicy { requesterDid, status }`. -/
structure ICoralKMGuardianPolicy where
  requesterDid : String
  status : RequestPolicy
deriving DecidableEq, Repr

/-- Embeds `ICoralKMShare { ownerDid, namespace {id, gateway}, updatedAt, threshold, share }`. -/
structure ICoralKMShare where
  ownerDid : String
  namespaceId : String
  namespaceGateway : String
  updatedAt : Int
  threshold : Nat
  share : String
deriving DecidableEq, Repr

/-- Embeds `ICoralKMRecoveryRequest { id, deviceDid, namespace, createdAt, expiresAt }`.
The `namespace` field is spelt `ns` (`namespace` is a Lean keyword). -/
structure ICoralKMRecoveryRequest where
  id : String
  deviceDid : String
  ns : INamespace
  createdAt : Int
  expiresAt : Int
deriving DecidableEq, Repr

/-- State of `MemoryGuardianStore`: its three private `Map`s. -/
structure GuardianStoreState where
  guardianPolicies : List (String × ICoralKMGuardianPolicy)
  shares : List (String × ICoralKMShare)
  recoveryRequests : List (String × ICoralKMRecoveryRequest)
deriving DecidableEq, Repr

namespace MemoryGuardianStore

/-- Embeds `_hashKey(gateway, nid)`: SHA-256 of `` `${gateway}:${nid}` ``, modelled as the
(injectively hashed) input string itself. -/
def hashKey (gateway nid : String) : String :=
  gateway ++ ":" ++ nid

/-- Embeds `getGuardianPolicy(requesterDid)`. -/
def getGuardianPolicy (requesterDid : String) (st : GuardianStoreState) :
    Option ICoralKMGuardianPolicy :=
  alGet requesterDid st.guardianPolicies

/-- Embeds `setGuardianPolicy(requesterDid, policy)`. -/
def setGuardianPolicy (requesterDid : String) (policy : RequestPolicy)
    (st : GuardianStoreState) : GuardianStoreState :=
  { st with
    guardianPolicies :=
      alSet requesterDid ⟨requesterDid, policy⟩ st.guardianPolicies }

/-- Embeds `removeGuardianPolicy(requesterDid)`: deletes the policy entry and every
share whose `ownerDid` equals `requesterDid`; returns `!has(requesterDid)`. -/
def removeGuardianPolicy (requesterDid : String) (st : GuardianStoreState) :
    GuardianStoreState × Bool :=
  let policies := alDel requesterDid st.guardianPolicies
  let shares := st.shares.filter (fun kv => kv.2.ownerDid != requesterDid)
  (⟨policies, shares, st.recoveryRequests⟩, (alGet requesterDid policies).isNone)

/-- Embeds `isGuardian(gateway, nid)`: `this.shares.has(key)`. -/
def isGuardian (gateway nid : String) (st : GuardianStoreState) : Bool :=
  (alGet (hashKey gateway nid) st.shares).isSome

/-- Embeds `saveShare(ownerDid, gateway, nid, threshold, share)`: throws unless the
owner's policy is `GRANTED`; otherwise upserts the share under the hash key.
`now` stands for `new Date()` for `updatedAt`. -/
def saveShare (ownerDid gateway nid : String) (threshold : Nat) (share : String)
    (now : Int) (st : GuardianStoreState) : Except String GuardianStoreState :=
  match getGuardianPolicy ownerDid st with
  | some policy =>
    if policy.status = RequestPolicy.GRANTED then
      .ok { st with
        shares := alSet (hashKey gateway nid)
          ⟨ownerDid, nid, gateway, now, threshold, share⟩ st.shares }
    else
      .error "Cannot save share: Guardian policy not granted for this owner DID."
  | none => .error "Cannot save share: Guardian policy not granted for this owner DID."

/-- Embeds `getShare(gateway, nid)`. -/
def getShare (gateway nid : String) (st : GuardianStoreState) :
    Option ICoralKMShare :=
  alGet (hashKey gateway nid) st.shares

/-- Embeds `listShares()`. -/
def listShares (st : GuardianStoreState) : List ICoralKMShare :=
  st.shares.map (fun kv => kv.2)

/-- Embeds `deleteShare(gateway, nid)`: returns whether an entry was removed. -/
def deleteShare (gateway nid : String) (st : GuardianStoreState) :
    GuardianStoreState × Bool :=
  ({ st with shares := alDel (hashKey gateway nid) st.shares },
    (alGet (hashKey gateway nid) st.shares).isSome)

/-- Embeds `saveRecoveryRequest(deviceDid, namespace, requestId, expiresAt)`;
`now` stands for `new Date()` for `createdAt`. -/
def saveRecoveryRequest (deviceDid : String) (ns : INamespace)
    (requestId : String) (expiresAt : Int) (now : Int) (st : GuardianStoreState) :
    GuardianStoreState :=
  { st with
    recoveryRequests :=
      alSet requestId ⟨requestId, deviceDid, ns, now, expiresAt⟩
        st.recoveryRequests }

/-- Embeds `getRecoveryRequest(requestId)`. -/
def getRecoveryRequest (requestId : String) (st : GuardianStoreState) :
    Option ICoralKMRecoveryRequest :=
  alGet requestId st.recoveryRequests

/-- Embeds `deleteRecoveryRequest(requestId)`: returns whether an entry was removed. -/
def deleteRecoveryRequest (requestId : String) (st : GuardianStoreState) :
    GuardianStoreState × Bool :=
  ({ st with recoveryRequests := alDel requestId st.recoveryRequests },
    (alGet requestId st.recoveryRequests).isSome)

end MemoryGuardianStore

/-! ## Protocol message model

Only the fields the embedded handler branches read are modelled. An incoming
(Veramo) `Message` exposes `id`, `from`, `to`, `threadId` and the decoded
`data` body; body fields are optional because handlers assert them. -/

/-! CoralKM V0.1 message type URIs (`CoralKMV01MessageTypes`). -/

namespace CoralKMV01MessageTypes

def GUARDIAN_REMOVE_CONFIRM : String :=
  "https://coralstack.com/coralkm/0.1/guardian-remove-confirm"

def GUARDIAN_VERIFICATION_CHALLENGE : String :=
  "https://coralstack.com/coralkm/0.1/guardian-verification-challenge"

def GUARDIAN_RELEASE_SHARE : String :=
  "https://coralstack.com/coralkm/0.1/guardian-release-share"

def GUARDIAN_SHARE_UPDATE : String :=
  "https://coralstack.com/coralkm/0.1/guardian-share-update"

def PROBLEM_REPORT : String :=
  "https://didcomm.org/report-problem/2.0/problem-report"

end CoralKMV01MessageTypes

/-- Decoded body (`message.data`) fields used by the embedded branches. -/
structure MessageData where
  response : Option String := none
  challenge_id : Option String := none
  pthid : Option String := none
  device_did : Option String := none
  ns : Option INamespace := none
  expires_at : Option Int := none
deriving DecidableEq, Repr

/-- An incoming Veramo `Message` (the fields the handlers read).
`from`/`to` are optional strings (`message.from`, `message.to`); `threadId`
is `message.threadId`. -/
structure InMessage where
  id : String
  type : String
  from_ : Option String := none
  to_ : Option String := none
  threadId : Option String := none
  data : MessageData := {}
deriving DecidableEq, Repr

/-- Embeds `challenge {id, type, instructions}` of a verification challenge. -/
structure Challenge where
  id : String
  type : String
  instructions : String
deriving DecidableEq, Repr

/-- Body of an outgoing message, one variant per `createMessage` case the
embedded handlers use. -/
inductive MsgBody
  | empty
  | verificationChallenge (challenge : Challenge) (pthid : String)
  | releaseShare (share : String) (threshold : Nat) (pthid : String)
  | shareUpdate (ns : INamespace) (threshold : Nat) (share : Option String)
      (delay : Nat)
  | problemReport (code : String) (comment : Option String)
      (args : Option (List String)) (escalate_to : Option String)
deriving DecidableEq, Repr

/-- An outgoing `IDIDCommMessage` as built by `createMessage`. -/
structure OutMessage where
  id : String
  type : String
  from_ : String
  to_ : List String
  thid : Option String := none
  pthid : Option String := none
  body : MsgBody := .empty
deriving DecidableEq, Repr

/-- Embeds `DIDCommProtocolError { message, code, args }` (`messageType` omitted). -/
structure DIDCommProtocolError where
  message : String
  code : String
  args : List String
deriving DecidableEq, Repr

/-- JS truthiness of a possibly-absent string: `undefined` and `""` are falsy. -/
def jsTruthy : Option String → Bool
  | some s => s ≠ ""
  | none => false

/-- Embeds `assertMessageFieldDefined(value, name, messageType)` for string fields:
throws `invalid_argument` when the value is JS-falsy (absent or `""`). -/
def assertFieldStr (value : Option String) (name : String) (fullType : String) :
    Except DIDCommProtocolError String :=
  match value with
  | some s =>
    if s = "" then
      .error ⟨"invalid_argument:  Protocol Message {1} received without {2} set",
        "invalid_argument", [fullType, name]⟩
    else .ok s
  | none =>
    .error ⟨"invalid_argument:  Protocol Message {1} received without {2} set",
      "invalid_argument", [fullType, name]⟩

/-- Embeds `assertMessageFieldDefined` for object-valued fields (objects are truthy). -/
def assertFieldNs (value : Option INamespace) (name : String) (fullType : String) :
    Except DIDCommProtocolError INamespace :=
  match value with
  | some v => .ok v
  | none =>
    .error ⟨"invalid_argument:  Protocol Message {1} received without {2} set",
      "invalid_argument", [fullType, name]⟩

/-- Embeds `assertMessageFieldDefined` for the `expires_at` timestamp (presence check;
dates are modelled as integers). -/
def assertFieldDate (value : Option Int) (name : String) (fullType : String) :
    Except DIDCommProtocolError Int :=
  match value with
  | some v => .ok v
  | none =>
    .error ⟨"invalid_argument:  Protocol Message {1} received without {2} set",
      "invalid_argument", [fullType, name]⟩

/-! ## `DCCoralKMProtocolV01.handle` — embedded branches

Each function embeds one `case` of the `switch` in
`coralkm-protocol-handler.ts`, with its `createMessage` call inlined as the
record the corresponding `createMessage` case builds. `assertRole` succeeds
in every embedded branch (the handler is run by an agent holding the
required role; role violations are the engine-error path modelled
separately). The `guardianStore` is present (the constructor enforces this
for the guardian role). `v4()` fresh UUIDs are passed in as explicit
`newId`/`newChallengeId` arguments. -/

namespace DCCoralKMProtocolV01

open MemoryGuardianStore

/-- Embeds `case 'namespace-recovery-request'`: if `isGuardian`, persist a recovery
request keyed by `message.id` and reply with a verification challenge to
`body.device_did` (`pthid = message.id`, from `this._guardian_did`);
otherwise silently ignore (`return null`). -/
def handleNamespaceRecoveryRequest (newId newChallengeId : String)
    (guardianDid : String) (now : Int) (st : GuardianStoreState)
    (m : InMessage) :
    Except DIDCommProtocolError (Option OutMessage × GuardianStoreState) := do
  let device_did ← assertFieldStr m.data.device_did "body.device_did" m.type
  let ns ← assertFieldNs m.data.ns "body.namespace" m.type
  let expires_at ← assertFieldDate m.data.expires_at "body.expires_at" m.type
  if isGuardian ns.gateway_did ns.id st then
    let st' := saveRecoveryRequest device_did ns m.id expires_at now st
    .ok (some
      { id := newId
        type := CoralKMV01MessageTypes.GUARDIAN_VERIFICATION_CHALLENGE
        from_ := guardianDid
        to_ := [device_did]
        pthid := some m.id
        body := .verificationChallenge
          ⟨newChallengeId, "code",
            "Please enter your verification code provided by your guardian."⟩
          m.id }, st')
  else
    .ok (none, st)

/-- Embeds `case 'guardian-remove'`: `removeGuardianPolicy(message.from)` then reply
`GUARDIAN_REMOVE_CONFIRM` with `thid = message.id`. -/
def handleGuardianRemove (newId : String) (st : GuardianStoreState)
    (m : InMessage) :
    Except DIDCommProtocolError (Option OutMessage × GuardianStoreState) := do
  let mfrom ← assertFieldStr m.from_ "from" m.type
  let mto ← assertFieldStr m.to_ "to" m.type
  let st' := (removeGuardianPolicy mfrom st).1
  .ok (some
    { id := newId
      type := CoralKMV01MessageTypes.GUARDIAN_REMOVE_CONFIRM
      from_ := mto
      to_ := [mfrom]
      thid := some m.id }, st')

/-- Embeds `case 'guardian-verification-challenge-response'`: look the recovery
request up by `body.pthid`; if the demo code `'123456'` matches, fetch the
share for the request's namespace and reply `GUARDIAN_RELEASE_SHARE` to the
request's `deviceDid` (returning immediately); otherwise fall through to
`deleteRecoveryRequest` and return `null`. -/
def handleGuardianVerificationChallengeResponse (newId : String)
    (st : GuardianStoreState) (m : InMessage) :
    Except DIDCommProtocolError (Option OutMessage × GuardianStoreState) := do
  let _ ← assertFieldStr m.from_ "from" m.type
  let mto ← assertFieldStr m.to_ "to" m.type
  let response ← assertFieldStr m.data.response "body.response" m.type
  let _ ← assertFieldStr m.data.challenge_id "body.challenge_id" m.type
  let pthid ← assertFieldStr m.data.pthid "body.pthid" m.type
  match getRecoveryRequest pthid st with
  | none => .ok (none, st)
  | some recoveryRequest =>
    if response = "123456" then
      match getShare recoveryRequest.ns.gateway_did recoveryRequest.ns.id st with
      | none => .ok (none, st)
      | some share =>
        .ok (some
          { id := newId
            type := CoralKMV01MessageTypes.GUARDIAN_RELEASE_SHARE
            from_ := mto
            to_ := [recoveryRequest.deviceDid]
            pthid := some pthid
            body := .releaseShare share.share share.threshold pthid }, st)
    else
      .ok (none, (deleteRecoveryRequest pthid st).1)

end DCCoralKMProtocolV01

/-! ## Protocol engine error path (`DIDCommProtocolMessageHandler.handle`)

The `catch` branch of the engine's `handle` builds one problem-report message
via `DCReportProblemProtocolV2.createMessage` and attaches it as the (single)
return-route response. -/

/-- JS `a || b` for a possibly-absent string `a`: `b` when `a` is absent or
the empty string. -/
def jsOrStr (a : Option String) (b : String) : String :=
  match a with
  | some s => if s = "" then b else s
  | none => b

namespace DIDCommProtocolMessageHandler

/-- The `catch` branch of `handle` for a `DIDCommProtocolError` thrown by a
protocol handler: emits exactly one problem report, built by
`DCReportProblemProtocolV2.createMessage` with `from = message.to`,
`to = message.from`, `pthid = message.threadId || message.id`,
`code = error.code`, `comment = error.message`, `args = error.args`.
The list is the return-route responses attached for this message. -/
def handleProtocolFailure (newId : String) (m : InMessage)
    (error : DIDCommProtocolError) : List OutMessage :=
  [{ id := newId
     type := CoralKMV01MessageTypes.PROBLEM_REPORT
     from_ := (m.to_).getD ""
     to_ := [(m.from_).getD ""]
     pthid := some (jsOrStr m.threadId m.id)
     body := .problemReport error.code (some error.message) (some error.args)
       none }]

end DIDCommProtocolMessageHandler

/-! ## Wallet (`wallet.ts`) -/

/-- The slice of `IChannel` the share manager reads. -/
structure IChannel where
  id : String
  is_guardian : Bool
deriving DecidableEq, Repr

/-- A `GUARDIAN_SHARE_UPDATE` message as built in `_updateGuardianShares`
(the `createMessage` case inlined; `share` is `Option` because
`dekShares[index]` may be `undefined` in JS). -/
structure ShareUpdateMsg where
  to_ : String
  ns : INamespace
  threshold : Nat
  share : Option String
  delay : Nat
deriving DecidableEq, Repr

namespace Wallet

/-- The reduce in `_updateGuardianShares` counting channels with
`is_guardian`. -/
def totalSharesOf (channels : List IChannel) : Nat :=
  channels.foldl (fun acc channel => if channel.is_guardian then acc + 1 else acc) 0

/-- Embeds `Math.max(2, Math.ceil(totalShares / 2))`. -/
def thresholdOf (totalShares : Nat) : Nat :=
  max 2 ((totalShares + 1) / 2)

/-- Embeds `Wallet._updateGuardianShares`: count guardians; if fewer than 2, skip
share distribution; otherwise split the DEK (`EncryptionManager.splitDEK`,
whose external Shamir `split` is the `split` parameter) into
`totalShares` shares with `threshold`, then send one `GUARDIAN_SHARE_UPDATE`
per guardian channel, with `share := dekShares[index]` where `index` is the
channel's position in the full channels array. -/
def updateGuardianShares (split : Nat → Nat → List String) (ns : INamespace)
    (channels : List IChannel) : List ShareUpdateMsg :=
  let totalShares := totalSharesOf channels
  if totalShares < 2 then []
  else
    let threshold := thresholdOf totalShares
    let dekShares := split totalShares threshold
    (channels.enum).filterMap fun p =>
      if p.2.is_guardian then
        some ⟨p.2.id, ns, threshold, dekShares[p.1]?, 0⟩
      else none

/-- Embeds `Wallet._currentRecovery`. -/
structure CurrentRecovery where
  id : String
  ns : INamespace
  shares : List String
deriving DecidableEq, Repr

/-- The `GUARDIAN_RELEASE_SHARE` branch of `Wallet._onMessage`: if a recovery
is ongoing, push `decoded.share` onto the collected shares; when
`shares.length >= decoded.threshold`, restore (`SSS.combine` runs) and clear
the recovery. Returns the new `_currentRecovery` and whether `_restoreWallet`
was triggered. The sender (`message.from`, the guardian's identity) is
available to the branch but never consulted. -/
def onGuardianReleaseShare (_fromDid : String) (current : Option CurrentRecovery)
    (decodedShare : String) (decodedThreshold : Nat) :
    Option CurrentRecovery × Bool :=
  match current with
  | none => (none, false)
  | some recovery =>
    let recovery' := { recovery with shares := recovery.shares ++ [decodedShare] }
    if decodedThreshold ≤ recovery'.shares.length then
      (none, true)
    else
      (some recovery', false)

end Wallet

/-! ## `EncryptionManager` (AES-256-GCM with optional AAD)

Plaintexts and AADs are modelled at the byte level (the `pt`/`aadBytes`
values of the source): a plaintext is the JSON string the source encodes,
an AAD is the serialized context (`aadBytes` output) — so `Option String`
with the JS-truthiness coercion of `aad ? aadBytes(aad) : undefined`.
`crypto.subtle`'s AES-GCM primitive is a parameter (`aesEnc`/`aesDec`). -/

/-- Byte sequences (`Uint8Array`). -/
abbrev ByteSeq := List Nat

/-- Embeds `TextEncoder().encode` — UTF-8 bytes, modelled as the (injective)
codepoint sequence. -/
def strBytes (s : String) : ByteSeq :=
  s.data.map Char.toNat

/-- Embeds `TextDecoder().decode` — inverse of `strBytes`. -/
def bytesStr (b : ByteSeq) : String :=
  String.mk (b.map Char.ofNat)

namespace EncryptionManager

/-- Embeds `aad ? EncryptionManager.aadBytes(aad) : undefined`: absent or
JS-falsy (empty) AAD yields no AAD bytes. -/
def aadBytesOpt (aad : Option String) : Option ByteSeq :=
  match aad with
  | some s => if s = "" then none else some (strBytes s)
  | none => none

/-- The serialized payload `{ alg, v, iv, ct, aad? }` built by `encrypt`
(base64url fields hold their decoded byte values). -/
structure Envelope where
  alg : String
  v : Nat
  iv : ByteSeq
  ct : ByteSeq
  aad : Option ByteSeq
deriving DecidableEq, Repr

/-- Failures of `decrypt`. -/
inductive DecryptError
  | unsupportedAlg
  | aadMismatch
  | authFailure
deriving DecidableEq, Repr

/-- Embeds `EncryptionManager.equals`: constant-time byte comparison
(`diff |= a[i] ^ b[i]` folded over equal-length arrays). -/
def equals (a b : ByteSeq) : Bool :=
  if a.length ≠ b.length then false
  else ((List.zipWith (fun x y => x ^^^ y) a b).foldl (fun acc d => acc ||| d) 0) == 0

/-- Embeds `EncryptionManager.encrypt(key, data, aad?)`: AES-GCM over the encoded
plaintext with the optional AAD, packaged with algorithm metadata. -/
def encrypt {Key : Type} (aesEnc : Key → ByteSeq → Option ByteSeq → ByteSeq → ByteSeq)
    (key : Key) (iv : ByteSeq) (data : String) (aad : Option String) : Envelope :=
  let pt := strBytes data
  let aadBytes := aadBytesOpt aad
  { alg := "AES-GCM", v := 1, iv := iv, ct := aesEnc key iv aadBytes pt,
    aad := aadBytes }

/-- The fail-fast AAD byte-equality check of `decrypt`: `true` iff both
sides carry AAD and the bytes differ. -/
def aadBytesDiffer (providedAAD encodedAAD : Option ByteSeq) : Bool :=
  match providedAAD, encodedAAD with
  | some p, some e => !(equals p e)
  | _, _ => false

/-- Embeds `EncryptionManager.decrypt(key, encrypted, aad?)`: check `alg`; fail with
an AAD mismatch when AAD presence differs between payload and caller, or when
both are present with different bytes — in both cases before
`crypto.subtle.decrypt` is invoked; otherwise decrypt with the caller's AAD. -/
def decrypt {Key : Type}
    (aesDec : Key → ByteSeq → Option ByteSeq → ByteSeq → Option ByteSeq)
    (key : Key) (env : Envelope) (aad : Option String) :
    Except DecryptError String :=
  if env.alg ≠ "AES-GCM" then .error .unsupportedAlg
  else
    let providedAAD := aadBytesOpt aad
    let encodedAAD := env.aad
    if (providedAAD.isSome && encodedAAD.isNone)
        || (providedAAD.isNone && encodedAAD.isSome) then
      .error .aadMismatch
    else if aadBytesDiffer providedAAD encodedAAD then
      .error .aadMismatch
    else
      match aesDec key env.iv providedAAD env.ct with
      | some pt => .ok (bytesStr pt)
      | none => .error .authFailure

end EncryptionManager

/-! ## `DCReportProblemProtocolV2._processComment`

The JS regex replace `comment.replace(/\x7b(\d+)\x7d/g, ...)` is embedded as
a left-to-right character scanner: at each position, if a full placeholder
(`lbrace`, one or more decimal digits, `rbrace`) starts there, it is consumed
and replaced (or kept literal when the index has no argument); otherwise the
character is copied. The scanner carries explicit fuel (one unit per emitted
chunk; the input length suffices), keeping it structurally recursive. -/

/-- The `\x7b` character. -/
def lbrace : Char := Char.ofNat 123

/-- The `\x7d` character. -/
def rbrace : Char := Char.ofNat 125

/-- Try to match `(\d+)\x7d` at the start of `cs` (the part of a placeholder
after its opening brace): returns the digits and the rest after the closing
brace. -/
def scanPlaceholder (cs : List Char) : Option (List Char × List Char) :=
  let ds := cs.takeWhile Char.isDigit
  if ds.isEmpty then none
  else
    match cs.dropWhile Char.isDigit with
    | c :: rest => if c = rbrace then some (ds, rest) else none
    | [] => none

/-- Embeds `parseInt(index, 10)` on a digit string. -/
def parseDigits (ds : List Char) : Nat :=
  ds.foldl (fun acc c => acc * 10 + (c.toNat - 48)) 0

/-- JS array indexing `args[i]` for a possibly-negative index:
`undefined` off either end. -/
def jsIndex (args : List String) (i : Int) : Option String :=
  if i < 0 then none else args[i.toNat]?

/-- The regex callback: `args[i] !== undefined ? args[i] : <literal>` with
`i = parseInt(index, 10) - 1`; the literal is re-built from the captured
digits. -/
def substFor (args : List String) (ds : List Char) : List Char :=
  match jsIndex args ((parseDigits ds : Int) - 1) with
  | some a => a.data
  | none => lbrace :: (ds ++ [rbrace])

/-- Fuelled scanner for the global regex replace. -/
def pcFuel (args : List String) : Nat → List Char → List Char
  | 0, cs => cs
  | fuel + 1, cs =>
    match cs with
    | [] => []
    | c :: rest =>
      if c = lbrace then
        match scanPlaceholder rest with
        | some (ds, rest') => substFor args ds ++ pcFuel args fuel rest'
        | none => c :: pcFuel args fuel rest
      else c :: pcFuel args fuel rest

/-- Embeds `DCReportProblemProtocolV2._processComment(comment, args?)`:
`if (!args || args.length === 0) return comment`, else the global
placeholder replacement. -/
def processComment (comment : String) (args : Option (List String)) : String :=
  match args with
  | none => comment
  | some as =>
    if as.length = 0 then comment
    else String.mk (pcFuel as comment.data.length comment.data)

/-- The scanner run with its canonical fuel (used only in proofs; equal to
any sufficiently-fuelled run). -/
def pcRun (args : List String) (cs : List Char) : List Char :=
  pcFuel args cs.length cs

/-! ## Concrete fixtures for counterexamples and evaluations -/

namespace Fixtures

open MemoryGuardianStore

/-- A namespace used by the concrete scenarios. -/
def ns1 : INamespace := ⟨"ns-1", "did:gw"⟩

/-- Guardian store holding a share for `ns1` and a recovery request
`req-1` that expired at time 500. -/
def storeC1 : GuardianStoreState :=
  { guardianPolicies := [("did:wallet", ⟨"did:wallet", .GRANTED⟩)]
    shares := [(hashKey "did:gw" "ns-1", ⟨"did:wallet", "ns-1", "did:gw", 0, 2, "shard-A"⟩)]
    recoveryRequests := [("req-1", ⟨"req-1", "did:device", ns1, 0, 500⟩)] }

/-- A verification-challenge response with the valid demo code, whose `pthid`
matches the expired request `req-1`. -/
def msgC1 : InMessage :=
  { id := "m-1"
    type := "https://coralstack.com/coralkm/0.1/guardian-verification-challenge-response"
    from_ := some "did:device"
    to_ := some "did:guardian"
    data := { response := some "123456", challenge_id := some "ch-1",
              pthid := some "req-1" } }

/-- Guardian store with a live recovery request `req-4` and the matching
share. -/
def storeC4 : GuardianStoreState :=
  { guardianPolicies := [("did:wallet", ⟨"did:wallet", .GRANTED⟩)]
    shares := [(hashKey "did:gw" "ns-1", ⟨"did:wallet", "ns-1", "did:gw", 0, 2, "shard-B"⟩)]
    recoveryRequests := [("req-4", ⟨"req-4", "did:device", ns1, 0, 999999⟩)] }

/-- A successful verification-challenge response for `req-4`. -/
def msgC4 : InMessage :=
  { id := "m-4"
    type := "https://coralstack.com/coralkm/0.1/guardian-verification-challenge-response"
    from_ := some "did:device"
    to_ := some "did:guardian"
    data := { response := some "123456", challenge_id := some "ch-4",
              pthid := some "req-4" } }

/-- An ongoing recovery with no shares collected yet. -/
def recoveryC2 : Wallet.CurrentRecovery := ⟨"rec-1", ns1, []⟩

/-- Channel list whose first channel (the gateway) is not a guardian,
followed by two granted guardians. -/
def channelsC3 : List IChannel :=
  [⟨"did:gw", false⟩, ⟨"did:alice", true⟩, ⟨"did:bob", true⟩]

/-- A Shamir split honouring the library contract: `n` distinct shares. -/
def splitC3 : Nat → Nat → List String :=
  fun n _t => (List.range n).map (fun i => "s" ++ toString i)

/-- Guardian store where `did:alice` has a granted policy and owns a share. -/
def storeC7 : GuardianStoreState :=
  { guardianPolicies := [("did:alice", ⟨"did:alice", .GRANTED⟩)]
    shares := [(hashKey "did:gw" "ns-1", ⟨"did:alice", "ns-1", "did:gw", 0, 2, "shard-7"⟩)]
    recoveryRequests := [] }

/-- A `GUARDIAN_REMOVE` from `did:alice`. -/
def msgC7 : InMessage :=
  { id := "m-7"
    type := "https://coralstack.com/coralkm/0.1/guardian-remove"
    from_ := some "did:alice"
    to_ := some "did:guardian" }

/-- An offending message carrying an empty-string `thid`. -/
def msgC8 : InMessage :=
  { id := "m-8"
    type := "https://coralstack.com/coralkm/0.1/namespace-request"
    from_ := some "did:sender"
    to_ := some "did:recv"
    threadId := some "" }

/-- The role-violation error for `msgC8`. -/
def errC8 : DIDCommProtocolError :=
  ⟨"invalid_role:  Protocol Message {1} received by agent without required role {2}",
    "invalid_role",
    ["https://coralstack.com/coralkm/0.1/namespace-request", "gateway"]⟩

/-- Identity AES-GCM oracle pair (a valid cipher for the roundtrip
hypothesis). -/
def aesEncId : Unit → ByteSeq → Option ByteSeq → ByteSeq → ByteSeq :=
  fun _ _ _ pt => pt

/-- Matching decryption oracle for `aesEncId`. -/
def aesDecId : Unit → ByteSeq → Option ByteSeq → ByteSeq → Option ByteSeq :=
  fun _ _ _ ct => some ct

/-- A poison decryption oracle that would "succeed" on anything — used to
show AAD mismatches are raised without consulting the cipher. -/
def aesDecPoison : Unit → ByteSeq → Option ByteSeq → ByteSeq → Option ByteSeq :=
  fun _ _ _ _ => some [0]

end Fixtures

/-! Helper lemmas for the byte comparison and the text codec. -/

lemma natLorEqZero (a b : Nat) : (a ||| b) = 0 ↔ a = 0 ∧ b = 0 := by
  constructor
  · intro h
    refine ⟨?_, ?_⟩ <;> by_contra hne
    · obtain ⟨i, hi⟩ := Nat.ne_zero_implies_bit_true hne
      have ht := Nat.testBit_lor a b i
      rw [h, Nat.zero_testBit, hi] at ht
      simp at ht
    · obtain ⟨i, hi⟩ := Nat.ne_zero_implies_bit_true hne
      have ht := Nat.testBit_lor a b i
      rw [h, Nat.zero_testBit, hi] at ht
      simp at ht
  · rintro ⟨rfl, rfl⟩
    rfl

lemma foldlLorEqZero (l : List Nat) :
    ∀ acc : Nat, (l.foldl (fun acc d => acc ||| d) acc = 0 ↔
      acc = 0 ∧ ∀ x ∈ l, x = 0) := by
  induction l with
  | nil => simp
  | cons x l ih =>
    intro acc
    simp only [List.foldl_cons, List.mem_cons, forall_eq_or_imp]
    rw [ih (acc ||| x), natLorEqZero]
    tauto

lemma zipXorAllZero :
    ∀ (a b : List Nat), a.length = b.length →
      ((∀ x ∈ List.zipWith (fun x y => x ^^^ y) a b, x = 0) ↔ a = b)
  | [], [], _ => by simp
  | [], _ :: _, h => by simp at h
  | _ :: _, [], h => by simp at h
  | x :: a, y :: b, h => by
    have ih := zipXorAllZero a b (by simpa using h)
    simp only [List.zipWith_cons_cons, List.mem_cons, forall_eq_or_imp,
      List.cons.injEq]
    rw [ih, Nat.xor_eq_zero]

lemma equalsTrueIff (a b : ByteSeq) : EncryptionManager.equals a b = true ↔ a = b := by
  unfold EncryptionManager.equals
  by_cases hlen : a.length = b.length
  · simp only [hlen, ne_eq, not_true_eq_false, if_false, beq_iff_eq]
    rw [foldlLorEqZero]
    simp only [true_and]
    exact zipXorAllZero a b hlen
  · simp only [ne_eq, hlen, not_false_eq_true, if_true]
    constructor
    · intro h
      simp at h
    · intro hab
      exact absurd (congrArg List.length hab) hlen

lemma bytesStrStrBytes (s : String) : bytesStr (strBytes s) = s := by
  cases s with
  | mk data =>
    simp only [strBytes, bytesStr, List.map_map]
    congr 1
    rw [show (Char.ofNat ∘ Char.toNat) = id from funext Char.ofNat_toNat,
      List.map_id]

lemma strBytesInjective : Function.Injective strBytes := by
  intro s t h
  have := congrArg bytesStr h
  rwa [bytesStrStrBytes, bytesStrStrBytes] at this


/-! Propositional equality on `Except` results is decidable (used by the
concrete evaluations below). -/

deriving instance DecidableEq for Except

/-! ## Claim theorems -/

/-- Claim C1 (code evaluation at the failing input). The claim says an expired
recovery request is deleted and never answered with a `GUARDIAN_RELEASE_SHARE`.
In the code the handler never consults `expires_at`: at time 1000, with
request `req-1` expired at 500, a valid response still yields a
`GUARDIAN_RELEASE_SHARE` reply and the request stays stored. -/
theorem c1_expired_request_still_released :
    (MemoryGuardianStore.getRecoveryRequest "req-1" Fixtures.storeC1).map
        (fun r => r.expiresAt) = some 500 ∧
    (500 : Int) < 1000 ∧
    DCCoralKMProtocolV01.handleGuardianVerificationChallengeResponse "out-1"
        Fixtures.storeC1 Fixtures.msgC1 =
      .ok (some
        { id := "out-1"
          type := CoralKMV01MessageTypes.GUARDIAN_RELEASE_SHARE
          from_ := "did:guardian"
          to_ := ["did:device"]
          pthid := some "req-1"
          body := .releaseShare "shard-A" 2 "req-1" }, Fixtures.storeC1) ∧
    (MemoryGuardianStore.getRecoveryRequest "req-1" Fixtures.storeC1).isSome = true := by
  decide

/-- Claim C4 (code evaluation at the failing input). On successful verification
the handler returns the `GUARDIAN_RELEASE_SHARE` reply immediately, so the
`deleteRecoveryRequest` call after the `if`/`else` is never reached: the
store comes back unchanged and `req-4` survives, contradicting the claim
(and the code's own trailing comment) that the request is deleted in both
branches. The failure branch does delete. -/
theorem c4_success_branch_keeps_request :
    DCCoralKMProtocolV01.handleGuardianVerificationChallengeResponse "out-4"
        Fixtures.storeC4 Fixtures.msgC4 =
      .ok (some
        { id := "out-4"
          type := CoralKMV01MessageTypes.GUARDIAN_RELEASE_SHARE
          from_ := "did:guardian"
          to_ := ["did:device"]
          pthid := some "req-4"
          body := .releaseShare "shard-B" 2 "req-4" }, Fixtures.storeC4) ∧
    (MemoryGuardianStore.getRecoveryRequest "req-4" Fixtures.storeC4).isSome = true ∧
    (DCCoralKMProtocolV01.handleGuardianVerificationChallengeResponse "out-4"
        Fixtures.storeC4
        { Fixtures.msgC4 with
          data := { Fixtures.msgC4.data with response := some "999999" } }).map
      (fun r => (MemoryGuardianStore.getRecoveryRequest "req-4" r.2).isSome) =
      .ok false := by
  decide

/-- Claim C2 (code evaluation at the failing input). The claim says a second
share from the same guardian is not appended and does not count toward the
threshold. In the code the branch pushes every received share without
consulting the sender: two `GUARDIAN_RELEASE_SHARE` messages from the same
guardian `did:guardA` with threshold 2 are both appended, and the second one
triggers the restore (`SSS.combine`) with only one distinct guardian. -/
theorem c2_duplicate_share_double_counts :
    Wallet.onGuardianReleaseShare "did:guardA" (some Fixtures.recoveryC2)
        "shard-X" 2 =
      (some ⟨"rec-1", Fixtures.ns1, ["shard-X"]⟩, false) ∧
    Wallet.onGuardianReleaseShare "did:guardA"
        (some ⟨"rec-1", Fixtures.ns1, ["shard-X"]⟩) "shard-X" 2 =
      (none, true) := by
  decide

/-- Claim C3 (code evaluation at the failing input). With channels
`[gateway (not a guardian), did:alice, did:bob]` the re-split produces the
2 shares `s0`, `s1`, but the loop indexes them by the channel position:
`did:alice` (index 1) gets `s1`, `did:bob` (index 2) gets
`dekShares[2] = undefined`, and `s0` is never sent — contradicting the claim
that every granted guardian receives exactly one defined share. -/
theorem c3_share_assignment_by_channel_index :
    (Fixtures.splitC3 2 2).length = 2 ∧
    Wallet.updateGuardianShares Fixtures.splitC3 Fixtures.ns1
        Fixtures.channelsC3 =
      [⟨"did:alice", Fixtures.ns1, 2, some "s1", 0⟩,
        ⟨"did:bob", Fixtures.ns1, 2, none, 0⟩] := by
  decide

/-- Claim C7 (counterexample). The claim says handling `GUARDIAN_REMOVE` sets
the sender's guardian policy to `Denied`. In the code
`removeGuardianPolicy` deletes the policy entry instead: after the handler
runs for `did:alice` (previously `GRANTED`), the policy lookup returns
nothing rather than a `DENIED` policy. -/
theorem c7_policy_deleted_not_denied :
    MemoryGuardianStore.getGuardianPolicy "did:alice" Fixtures.storeC7 =
      some ⟨"did:alice", .GRANTED⟩ ∧
    (DCCoralKMProtocolV01.handleGuardianRemove "out-7" Fixtures.storeC7
        Fixtures.msgC7).map
      (fun r => MemoryGuardianStore.getGuardianPolicy "did:alice" r.2) =
      .ok none := by
  decide

/-- Claim C8 (counterexample). The claim says the problem report carries
`pthid` equal to the offending message's `thid` when it has one. The engine
computes `message.threadId || message.id` with JS `||`, so an offending
message carrying the (defined) empty-string `thid` gets `pthid = id`
instead. -/
theorem c8_empty_thid_replaced_by_id :
    Fixtures.msgC8.threadId = some "" ∧
    (DIDCommProtocolMessageHandler.handleProtocolFailure "p-8" Fixtures.msgC8
        Fixtures.errC8).map (fun r => r.pthid) = [some "m-8"] ∧
    ("m-8" : String) ≠ "" := by
  decide

/-! Association-list lemmas (JS `Map`s have unique keys; where a statement
needs it, that invariant appears as a `Nodup` hypothesis on the key list). -/

lemma alGetAlSetSelf {β : Type} (k : String) (v : β) (l : List (String × β)) :
    alGet k (alSet k v l) = some v := by
  induction l with
  | nil => simp [alSet, alGet]
  | cons kv rest ih =>
    by_cases h : kv.1 = k
    · simp [alSet, alGet, h]
    · simpa [alSet, alGet, h] using ih

lemma alGetNoneOfNotMem {β : Type} (k : String) (l : List (String × β))
    (h : k ∉ l.map Prod.fst) : alGet k l = none := by
  induction l with
  | nil => rfl
  | cons kv rest ih =>
    simp only [List.map_cons, List.mem_cons] at h
    push_neg at h
    simp only [alGet]
    rw [if_neg (fun he => h.1 he.symm)]
    exact ih h.2

lemma alGetAlDelSelf {β : Type} (k : String) (l : List (String × β))
    (h : (l.map Prod.fst).Nodup) : alGet k (alDel k l) = none := by
  induction l with
  | nil => rfl
  | cons kv rest ih =>
    simp only [List.map_cons, List.nodup_cons] at h
    by_cases he : kv.1 = k
    · simp only [alDel, if_pos he]
      exact alGetNoneOfNotMem k rest (he ▸ h.1)
    · simp only [alDel, if_neg he, alGet, if_neg he]
      exact ih h.2

lemma filterAllHolds {β : Type} (p : β → Bool) (l : List β) :
    (l.filter p).all p = true := by
  rw [List.all_eq_true]
  intro x hx
  exact (List.mem_filter.mp hx).2

/-- Claim C7 (amended behaviour, proved). Handling `GUARDIAN_REMOVE` removes
the sender's guardian policy outright (a subsequent policy lookup returns
nothing — not a `Denied` policy), deletes every share owned by the sender in
the same store operation, and replies `GUARDIAN_REMOVE_CONFIRM` with `thid`
equal to the remove message's id. -/
theorem c7_amended_remove_behaviour (newId : String) (st : GuardianStoreState)
    (m : InMessage) (mfrom mto : String)
    (hfrom : m.from_ = some mfrom) (hfrom' : mfrom ≠ "")
    (hto : m.to_ = some mto) (hto' : mto ≠ "")
    (hkeys : (st.guardianPolicies.map Prod.fst).Nodup) :
    DCCoralKMProtocolV01.handleGuardianRemove newId st m =
      .ok (some
        { id := newId
          type := CoralKMV01MessageTypes.GUARDIAN_REMOVE_CONFIRM
          from_ := mto
          to_ := [mfrom]
          thid := some m.id },
        (MemoryGuardianStore.removeGuardianPolicy mfrom st).1) ∧
    MemoryGuardianStore.getGuardianPolicy mfrom
      (MemoryGuardianStore.removeGuardianPolicy mfrom st).1 = none ∧
    ((MemoryGuardianStore.removeGuardianPolicy mfrom st).1.shares.all
      (fun kv => kv.2.ownerDid != mfrom)) = true := by
  refine ⟨?_, ?_, ?_⟩
  · simp only [DCCoralKMProtocolV01.handleGuardianRemove, hfrom, hto,
      assertFieldStr, if_neg hfrom', if_neg hto']
    rfl
  · simp only [MemoryGuardianStore.removeGuardianPolicy,
      MemoryGuardianStore.getGuardianPolicy]
    exact alGetAlDelSelf mfrom st.guardianPolicies hkeys
  · simp only [MemoryGuardianStore.removeGuardianPolicy]
    exact filterAllHolds (fun kv => kv.2.ownerDid != mfrom) st.shares

/-- Witness for claim C7: the amended theorem applied at a concrete store and
remove message. -/
theorem c7_amended_remove_behaviour_witness :
    DCCoralKMProtocolV01.handleGuardianRemove "out-7w" Fixtures.storeC7
        Fixtures.msgC7 =
      .ok (some
        { id := "out-7w"
          type := CoralKMV01MessageTypes.GUARDIAN_REMOVE_CONFIRM
          from_ := "did:guardian"
          to_ := ["did:alice"]
          thid := some "m-7" },
        (MemoryGuardianStore.removeGuardianPolicy "did:alice" Fixtures.storeC7).1) ∧
    MemoryGuardianStore.getGuardianPolicy "did:alice"
      (MemoryGuardianStore.removeGuardianPolicy "did:alice" Fixtures.storeC7).1 = none ∧
    ((MemoryGuardianStore.removeGuardianPolicy "did:alice" Fixtures.storeC7).1.shares.all
      (fun kv => kv.2.ownerDid != "did:alice")) = true :=
  c7_amended_remove_behaviour "out-7w" Fixtures.storeC7 Fixtures.msgC7
    "did:alice" "did:guardian" (by decide) (by decide) (by decide) (by decide)
    (by decide)

/-- Claim C8 (amended behaviour, proved). When a protocol handler rejects a
message with a `DIDCommProtocolError`, the engine emits exactly one problem
report, addressed to the offender's `from`, carrying the error's code and
comment (and args), with `pthid` equal to the offender's `thid` when that is
present and non-empty, and the offender's `id` otherwise (JS `||`
semantics). -/
theorem c8_amended_problem_report (newId : String) (m : InMessage)
    (e : DIDCommProtocolError) (f t : String)
    (hfrom : m.from_ = some f) (hto : m.to_ = some t) :
    (DIDCommProtocolMessageHandler.handleProtocolFailure newId m e).length = 1 ∧
    DIDCommProtocolMessageHandler.handleProtocolFailure newId m e =
      [{ id := newId
         type := CoralKMV01MessageTypes.PROBLEM_REPORT
         from_ := t
         to_ := [f]
         pthid := some (match m.threadId with
           | some s => if s = "" then m.id else s
           | none => m.id)
         body := .problemReport e.code (some e.message) (some e.args) none }] := by
  refine ⟨rfl, ?_⟩
  cases hthid : m.threadId with
  | none => simp [DIDCommProtocolMessageHandler.handleProtocolFailure, hfrom,
      hto, jsOrStr, hthid]
  | some s => simp [DIDCommProtocolMessageHandler.handleProtocolFailure, hfrom,
      hto, jsOrStr, hthid]

/-- Witness for claim C8: the amended theorem applied at a concrete offender (one
with a normal, non-empty `thid`) and error. -/
theorem c8_amended_problem_report_witness :
    (DIDCommProtocolMessageHandler.handleProtocolFailure "p-8w"
      { Fixtures.msgC8 with threadId := some "th-1" } Fixtures.errC8).length = 1 ∧
    DIDCommProtocolMessageHandler.handleProtocolFailure "p-8w"
        { Fixtures.msgC8 with threadId := some "th-1" } Fixtures.errC8 =
      [{ id := "p-8w"
         type := CoralKMV01MessageTypes.PROBLEM_REPORT
         from_ := "did:recv"
         to_ := ["did:sender"]
         pthid := some "th-1"
         body := .problemReport Fixtures.errC8.code (some Fixtures.errC8.message)
           (some Fixtures.errC8.args) none }] := by
  have h := c8_amended_problem_report "p-8w"
    { Fixtures.msgC8 with threadId := some "th-1" } Fixtures.errC8
    "did:sender" "did:recv" (by decide) (by decide)
  simpa [Fixtures.msgC8] using h

lemma equalsSelf (a : ByteSeq) : EncryptionManager.equals a a = true :=
  (equalsTrueIff a a).mpr rfl

/-- Claim C5 (confirmed). For every key, plaintext and associated data `aad`
(AAD per §4.1 is absent or a non-empty serialized context, hence
`≠ some ""`), decrypting the envelope produced by `encrypt` with the same
`aad` returns the original plaintext, assuming the AES-GCM primitive's
roundtrip contract `hgcm`; and decrypting it with any different associated
data `ad2` — including the absence-mismatch cases — fails with the AAD
mismatch error for **every** decryption primitive `aesDec2`, i.e. before any
decryption of the ciphertext is attempted. -/
theorem c5_aead_roundtrip_and_aad_mismatch {Key : Type}
    (aesEnc : Key → ByteSeq → Option ByteSeq → ByteSeq → ByteSeq)
    (aesDec aesDec2 : Key → ByteSeq → Option ByteSeq → ByteSeq → Option ByteSeq)
    (key : Key) (iv : ByteSeq) (data : String) (aad ad2 : Option String)
    (haad : aad ≠ some "") (had2 : ad2 ≠ some "") (hne : ad2 ≠ aad)
    (hgcm : ∀ iv2 aadB pt, aesDec key iv2 aadB (aesEnc key iv2 aadB pt) = some pt) :
    EncryptionManager.decrypt aesDec key
        (EncryptionManager.encrypt aesEnc key iv data aad) aad = .ok data ∧
    EncryptionManager.decrypt aesDec2 key
        (EncryptionManager.encrypt aesEnc key iv data aad) ad2 =
      .error .aadMismatch := by
  constructor
  · simp only [EncryptionManager.decrypt, EncryptionManager.encrypt]
    cases haadb : EncryptionManager.aadBytesOpt aad with
    | none =>
      simp [haadb, EncryptionManager.aadBytesDiffer, hgcm, bytesStrStrBytes]
    | some p =>
      simp [haadb, EncryptionManager.aadBytesDiffer, equalsSelf, hgcm,
        bytesStrStrBytes]
  · have hbytes : EncryptionManager.aadBytesOpt ad2 ≠
        EncryptionManager.aadBytesOpt aad := by
      cases aad with
      | none =>
        cases ad2 with
        | none => exact absurd rfl hne
        | some b =>
          have hb : b ≠ "" := fun hb => had2 (by rw [hb])
          simp [EncryptionManager.aadBytesOpt, hb]
      | some a =>
        have ha : a ≠ "" := fun ha => haad (by rw [ha])
        cases ad2 with
        | none => simp [EncryptionManager.aadBytesOpt, ha]
        | some b =>
          have hb : b ≠ "" := fun hb => had2 (by rw [hb])
          have hba : b ≠ a := fun hba => hne (by rw [hba])
          simp only [EncryptionManager.aadBytesOpt, if_neg hb, if_neg ha,
            ne_eq, Option.some.injEq]
          exact fun hf => hba (strBytesInjective hf)
    simp only [EncryptionManager.decrypt, EncryptionManager.encrypt]
    cases h2 : EncryptionManager.aadBytesOpt ad2 with
    | none =>
      cases h1 : EncryptionManager.aadBytesOpt aad with
      | none => rw [h2, h1] at hbytes; exact absurd rfl hbytes
      | some p => simp [h2, h1]
    | some q =>
      cases h1 : EncryptionManager.aadBytesOpt aad with
      | none => simp [h2, h1]
      | some p =>
        have hqp : q ≠ p := by
          rw [h2, h1] at hbytes
          exact fun hqp => hbytes (by rw [hqp])
        have heq : EncryptionManager.equals q p = false := by
          cases he : EncryptionManager.equals q p
          · rfl
          · exact absurd ((equalsTrueIff q p).mp he) hqp
        simp [h2, h1, EncryptionManager.aadBytesDiffer, heq]

/-- Witness for claim C5: the theorem applied with the identity cipher (which
satisfies the AES-GCM roundtrip contract), a poison second oracle, and the
concrete pair of contexts `ns-A` / `ns-B`. -/
theorem c5_aead_roundtrip_and_aad_mismatch_witness :
    EncryptionManager.decrypt Fixtures.aesDecId ()
        (EncryptionManager.encrypt Fixtures.aesEncId () [1, 2] "hello"
          (some "ns-A")) (some "ns-A") = .ok "hello" ∧
    EncryptionManager.decrypt Fixtures.aesDecPoison ()
        (EncryptionManager.encrypt Fixtures.aesEncId () [1, 2] "hello"
          (some "ns-A")) (some "ns-B") = .error .aadMismatch :=
  c5_aead_roundtrip_and_aad_mismatch Fixtures.aesEncId Fixtures.aesDecId
    Fixtures.aesDecPoison () [1, 2] "hello" (some "ns-A") (some "ns-B")
    (by decide) (by decide) (by decide) (fun _ _ _ => rfl)

/-- Claim C6 (confirmed). On a guardianship change with `n` granted guardians:
if `n < 2` the share manager sends nothing; otherwise every
`GUARDIAN_SHARE_UPDATE` it sends carries the threshold
`max 2 (ceil (n / 2))`, and the Shamir split is invoked at exactly `n`
shares and that threshold (so, by the split contract `hsplit`, the DEK is
split into exactly `n` shares). -/
theorem c6_resplit_threshold_and_skip (split : Nat → Nat → List String)
    (ns : INamespace) (channels : List IChannel)
    (hsplit : ∀ n t, (split n t).length = n) :
    (Wallet.totalSharesOf channels < 2 →
      Wallet.updateGuardianShares split ns channels = []) ∧
    ((Wallet.updateGuardianShares split ns channels).all
      (fun msg => msg.threshold ==
        max 2 ((Wallet.totalSharesOf channels + 1) / 2))) = true ∧
    (split (Wallet.totalSharesOf channels)
      (Wallet.thresholdOf (Wallet.totalSharesOf channels))).length =
      Wallet.totalSharesOf channels := by
  refine ⟨fun h => by simp [Wallet.updateGuardianShares, h], ?_, hsplit _ _⟩
  by_cases h : Wallet.totalSharesOf channels < 2
  · simp [Wallet.updateGuardianShares, h]
  · simp only [Wallet.updateGuardianShares, if_neg h]
    rw [List.all_eq_true]
    intro msg hmsg
    rw [List.mem_filterMap] at hmsg
    obtain ⟨p, _, hp⟩ := hmsg
    by_cases hg : p.2.is_guardian
    · simp only [hg, if_true, Option.some.injEq] at hp
      rw [← hp]
      simp [Wallet.thresholdOf]
    · simp [hg] at hp

/-- Witness for claim C6: the theorem applied at three channels, all guardians,
with a concrete contract-satisfying split. -/
theorem c6_resplit_threshold_and_skip_witness :
    (Wallet.totalSharesOf
        [⟨"did:gw", true⟩, ⟨"did:alice", true⟩, ⟨"did:bob", true⟩] < 2 →
      Wallet.updateGuardianShares Fixtures.splitC3 Fixtures.ns1
        [⟨"did:gw", true⟩, ⟨"did:alice", true⟩, ⟨"did:bob", true⟩] = []) ∧
    ((Wallet.updateGuardianShares Fixtures.splitC3 Fixtures.ns1
        [⟨"did:gw", true⟩, ⟨"did:alice", true⟩, ⟨"did:bob", true⟩]).all
      (fun msg => msg.threshold ==
        max 2 ((Wallet.totalSharesOf
          [⟨"did:gw", true⟩, ⟨"did:alice", true⟩, ⟨"did:bob", true⟩] + 1) / 2))) = true ∧
    (Fixtures.splitC3
      (Wallet.totalSharesOf
        [⟨"did:gw", true⟩, ⟨"did:alice", true⟩, ⟨"did:bob", true⟩])
      (Wallet.thresholdOf (Wallet.totalSharesOf
        [⟨"did:gw", true⟩, ⟨"did:alice", true⟩, ⟨"did:bob", true⟩]))).length =
      Wallet.totalSharesOf
        [⟨"did:gw", true⟩, ⟨"did:alice", true⟩, ⟨"did:bob", true⟩] :=
  c6_resplit_threshold_and_skip Fixtures.splitC3 Fixtures.ns1
    [⟨"did:gw", true⟩, ⟨"did:alice", true⟩, ⟨"did:bob", true⟩]
    (fun n t => by simp [Fixtures.splitC3])

/-- Claim C10 (confirmed). A guardian decides guardianship by share
possession, not policy: (a) after a successful `saveShare` under
`(gateway, nid)` the store answers `isGuardian = true`; (b) after
`deleteShare` under the same key it answers `false`; (c) `isGuardian` is
unchanged under arbitrary replacement of the guardian-policy table (and the
recovery-request table); and (d) a well-formed `namespace-recovery-request`
is answered with a `GUARDIAN_VERIFICATION_CHALLENGE` exactly when the store
holds a share for the requested namespace, and is silently dropped (no
reply, store untouched) otherwise. -/
theorem c10_guardianship_by_share_possession
    (gateway nid ownerDid shareData : String) (threshold : Nat) (now now2 : Int)
    (st st2 st3 stSaved : GuardianStoreState)
    (pols : List (String × ICoralKMGuardianPolicy))
    (rrs : List (String × ICoralKMRecoveryRequest))
    (newId newChallengeId guardianDid : String) (m : InMessage)
    (device_did : String) (nsv : INamespace) (e : Int)
    (hsave : MemoryGuardianStore.saveShare ownerDid gateway nid threshold
      shareData now st = .ok stSaved)
    (hnodup : (st2.shares.map Prod.fst).Nodup)
    (hdev : m.data.device_did = some device_did) (hdev' : device_did ≠ "")
    (hns : m.data.ns = some nsv)
    (hexp : m.data.expires_at = some e) :
    MemoryGuardianStore.isGuardian gateway nid stSaved = true ∧
    MemoryGuardianStore.isGuardian gateway nid
      (MemoryGuardianStore.deleteShare gateway nid st2).1 = false ∧
    MemoryGuardianStore.isGuardian gateway nid ⟨pols, st3.shares, rrs⟩ =
      MemoryGuardianStore.isGuardian gateway nid st3 ∧
    DCCoralKMProtocolV01.handleNamespaceRecoveryRequest newId newChallengeId
        guardianDid now2 st3 m =
      (if MemoryGuardianStore.isGuardian nsv.gateway_did nsv.id st3 then
        .ok (some
          { id := newId
            type := CoralKMV01MessageTypes.GUARDIAN_VERIFICATION_CHALLENGE
            from_ := guardianDid
            to_ := [device_did]
            pthid := some m.id
            body := .verificationChallenge
              ⟨newChallengeId, "code",
                "Please enter your verification code provided by your guardian."⟩
              m.id },
          MemoryGuardianStore.saveRecoveryRequest device_did nsv m.id e now2 st3)
      else .ok (none, st3)) := by
  refine ⟨?_, ?_, rfl, ?_⟩
  · unfold MemoryGuardianStore.saveShare at hsave
    cases hp : MemoryGuardianStore.getGuardianPolicy ownerDid st with
    | none => rw [hp] at hsave; cases hsave
    | some policy =>
      rw [hp] at hsave
      dsimp only at hsave
      by_cases hst : policy.status = RequestPolicy.GRANTED
      · rw [if_pos hst] at hsave
        cases hsave
        simp [MemoryGuardianStore.isGuardian, alGetAlSetSelf]
      · rw [if_neg hst] at hsave; cases hsave
  · simp only [MemoryGuardianStore.isGuardian, MemoryGuardianStore.deleteShare]
    rw [alGetAlDelSelf _ _ hnodup]
    rfl
  · simp only [DCCoralKMProtocolV01.handleNamespaceRecoveryRequest, hdev, hns,
      hexp, assertFieldStr, assertFieldNs, assertFieldDate, if_neg hdev']
    rfl

/-- Witness for claim C10: the theorem applied at a concrete store (policy granted
for `did:alice`, a stored share for `ns-1`) and a concrete well-formed
recovery request. -/
theorem c10_guardianship_by_share_possession_witness :
    MemoryGuardianStore.isGuardian "did:gw" "ns-9"
      { Fixtures.storeC7 with
        shares := alSet (MemoryGuardianStore.hashKey "did:gw" "ns-9")
          ⟨"did:alice", "ns-9", "did:gw", 7, 2, "sh-9"⟩ Fixtures.storeC7.shares } = true ∧
    MemoryGuardianStore.isGuardian "did:gw" "ns-9"
      (MemoryGuardianStore.deleteShare "did:gw" "ns-9" Fixtures.storeC7).1 = false ∧
    MemoryGuardianStore.isGuardian "did:gw" "ns-9"
      ⟨[], Fixtures.storeC7.shares, []⟩ =
      MemoryGuardianStore.isGuardian "did:gw" "ns-9" Fixtures.storeC7 ∧
    DCCoralKMProtocolV01.handleNamespaceRecoveryRequest "n-1" "ch-9"
        "did:guardian" 42 Fixtures.storeC7
        { id := "m-10"
          type := "https://coralstack.com/coralkm/0.1/namespace-recovery-request"
          from_ := some "did:gw"
          to_ := some "did:guardian"
          data := { device_did := some "did:device", ns := some Fixtures.ns1,
                    expires_at := some 111 } } =
      (if MemoryGuardianStore.isGuardian Fixtures.ns1.gateway_did
          Fixtures.ns1.id Fixtures.storeC7 then
        .ok (some
          { id := "n-1"
            type := CoralKMV01MessageTypes.GUARDIAN_VERIFICATION_CHALLENGE
            from_ := "did:guardian"
            to_ := ["did:device"]
            pthid := some "m-10"
            body := .verificationChallenge
              ⟨"ch-9", "code",
                "Please enter your verification code provided by your guardian."⟩
              "m-10" },
          MemoryGuardianStore.saveRecoveryRequest "did:device" Fixtures.ns1
            "m-10" 111 42 Fixtures.storeC7)
      else .ok (none, Fixtures.storeC7)) :=
  c10_guardianship_by_share_possession "did:gw" "ns-9" "did:alice" "sh-9" 2 7 42
    Fixtures.storeC7 Fixtures.storeC7 Fixtures.storeC7
    { Fixtures.storeC7 with
      shares := alSet (MemoryGuardianStore.hashKey "did:gw" "ns-9")
        ⟨"did:alice", "ns-9", "did:gw", 7, 2, "sh-9"⟩ Fixtures.storeC7.shares }
    [] [] "n-1" "ch-9" "did:guardian"
    { id := "m-10"
      type := "https://coralstack.com/coralkm/0.1/namespace-recovery-request"
      from_ := some "did:gw"
      to_ := some "did:guardian"
      data := { device_did := some "did:device", ns := some Fixtures.ns1,
                expires_at := some 111 } }
    "did:device" Fixtures.ns1 111
    (by decide) (by decide) (by decide) (by decide) (by decide) (by decide)

/-! Lemmas for the placeholder scanner (claim C9). -/

lemma stringDataInj (a b : String) (h : a.data = b.data) : a = b := by
  cases a
  cases b
  exact congrArg String.mk h

lemma takeDropWhileAppend (p : Char → Bool) (ds : List Char) (c : Char)
    (rest : List Char) (hds : ∀ x ∈ ds, p x) (hc : p c = false) :
    (ds ++ c :: rest).takeWhile p = ds ∧ (ds ++ c :: rest).dropWhile p = c :: rest := by
  induction ds with
  | nil => simp [List.takeWhile, List.dropWhile, hc]
  | cons d ds ih =>
    have hd : p d = true := hds d (by simp)
    have ih' := ih (fun x hx => hds x (by simp [hx]))
    simp only [List.cons_append, List.takeWhile_cons, List.dropWhile_cons, hd,
      if_true]
    exact ⟨by rw [ih'.1], by rw [ih'.2]⟩

lemma scanPlaceholderSpec (ds rest : List Char) (hne : ds ≠ [])
    (hdig : ∀ c ∈ ds, c.isDigit) :
    scanPlaceholder (ds ++ rbrace :: rest) = some (ds, rest) := by
  have h := takeDropWhileAppend Char.isDigit ds rbrace rest hdig (by decide)
  simp only [scanPlaceholder, h.1, h.2]
  rw [if_neg (by simpa [List.isEmpty_iff] using hne)]
  simp

lemma scanPlaceholderShrink (cs ds rest : List Char)
    (h : scanPlaceholder cs = some (ds, rest)) : rest.length < cs.length := by
  unfold scanPlaceholder at h
  by_cases he : (cs.takeWhile Char.isDigit).isEmpty
  · rw [if_pos he] at h; cases h
  · rw [if_neg he] at h
    cases hd : cs.dropWhile Char.isDigit with
    | nil => rw [hd] at h; cases h
    | cons c rest' =>
      rw [hd] at h
      dsimp only at h
      by_cases hc : c = rbrace
      · rw [if_pos hc] at h
        have hr : rest = rest' := ((Prod.mk.injEq _ _ _ _ ▸ Option.some.inj h).2).symm
        have hlen : cs.length =
            (cs.takeWhile Char.isDigit).length + (c :: rest').length := by
          conv_lhs => rw [← List.takeWhile_append_dropWhile (p := Char.isDigit)
            (l := cs)]
          rw [hd, List.length_append]
        subst hr
        simp only [List.length_cons] at hlen
        omega
      · rw [if_neg hc] at h; cases h

lemma pcFuelNil (args : List String) (f : Nat) : pcFuel args f [] = [] := by
  cases f <;> rfl

lemma pcFuelCongr (args : List String) :
    ∀ (n : Nat) (cs : List Char) (f₁ f₂ : Nat), cs.length ≤ n →
      cs.length ≤ f₁ → cs.length ≤ f₂ → pcFuel args f₁ cs = pcFuel args f₂ cs := by
  intro n
  induction n with
  | zero =>
    intro cs f₁ f₂ h1 _ _
    have : cs = [] := List.eq_nil_of_length_eq_zero (Nat.le_zero.mp h1)
    subst this
    rw [pcFuelNil, pcFuelNil]
  | succ n ih =>
    intro cs f₁ f₂ hn h1 h2
    cases cs with
    | nil => rw [pcFuelNil, pcFuelNil]
    | cons c rest =>
      simp only [List.length_cons] at hn h1 h2
      obtain ⟨g₁, rfl⟩ : ∃ g, f₁ = g + 1 := ⟨f₁ - 1, by omega⟩
      obtain ⟨g₂, rfl⟩ : ∃ g, f₂ = g + 1 := ⟨f₂ - 1, by omega⟩
      simp only [pcFuel]
      by_cases hc : c = lbrace
      · rw [if_pos hc, if_pos hc]
        cases hscan : scanPlaceholder rest with
        | some pr =>
          obtain ⟨ds, rest'⟩ := pr
          have hshrink := scanPlaceholderShrink rest ds rest' hscan
          dsimp only
          congr 1
          exact ih rest' g₁ g₂ (by omega) (by omega) (by omega)
        | none =>
          dsimp only
          congr 1
          exact ih rest g₁ g₂ (by omega) (by omega) (by omega)
      · rw [if_neg hc, if_neg hc]
        congr 1
        exact ih rest g₁ g₂ (by omega) (by omega) (by omega)

lemma pcRunConsNe (args : List String) (c : Char) (cs : List Char)
    (hc : c ≠ lbrace) : pcRun args (c :: cs) = c :: pcRun args cs := by
  unfold pcRun
  simp only [List.length_cons, pcFuel, if_neg hc]

lemma pcRunPlaceholder (args : List String) (cs ds rest : List Char)
    (h : scanPlaceholder cs = some (ds, rest)) :
    pcRun args (lbrace :: cs) = substFor args ds ++ pcRun args rest := by
  have hshrink := scanPlaceholderShrink cs ds rest h
  unfold pcRun
  simp only [List.length_cons, pcFuel, h, if_pos rfl, if_true]
  congr 1
  exact pcFuelCongr args cs.length rest cs.length rest.length (by omega)
    (by omega) (by omega)

lemma pcRunSplit (args : List String) (pre : List Char) :
    ∀ (ds post : List Char), lbrace ∉ pre → ds ≠ [] → (∀ c ∈ ds, c.isDigit) →
      pcRun args (pre ++ lbrace :: (ds ++ rbrace :: post)) =
        pre ++ (substFor args ds ++ pcRun args post) := by
  induction pre with
  | nil =>
    intro ds post _ hne hdig
    simp only [List.nil_append]
    exact pcRunPlaceholder args _ ds post (scanPlaceholderSpec ds post hne hdig)
  | cons c pre ih =>
    intro ds post hpre hne hdig
    have hc : c ≠ lbrace := fun h => hpre (by simp [h])
    simp only [List.cons_append]
    rw [pcRunConsNe args c _ hc,
      ih ds post (fun h => hpre (List.mem_cons_of_mem _ h)) hne hdig]

lemma processCommentSome (s : String) (args : List String) (hargs : args ≠ []) :
    processComment s (some args) = String.mk (pcRun args s.data) := by
  have hlen : ¬ args.length = 0 := fun h => hargs (List.length_eq_zero.mp h)
  simp only [processComment, if_neg hlen]
  rfl

/-- Claim C9 (confirmed). Problem-report comment processing: with an absent or
empty argument list the comment is returned unchanged; and a comment of the
form `pre ⬝ \x7b ds \x7d ⬝ post` (with `pre` placeholder-free and `ds` a
non-empty digit string, the decimal index `i`) is rewritten to `pre`
followed by `args[i-1]` when that argument is defined — and by the
placeholder kept literally unchanged when it is not (including `i = 0` and
out-of-range indices) — followed by the processing of the remainder. -/
theorem c9_process_comment (c0 pre post : String) (ds : List Char)
    (args : List String)
    (hpre : lbrace ∉ pre.data) (hne : ds ≠ [])
    (hdig : ∀ ch ∈ ds, ch.isDigit) (hargs : args ≠ []) :
    processComment c0 none = c0 ∧
    processComment c0 (some []) = c0 ∧
    processComment (pre ++ String.mk (lbrace :: (ds ++ [rbrace])) ++ post)
        (some args) =
      pre ++ (match jsIndex args ((parseDigits ds : Int) - 1) with
              | some a => a
              | none => String.mk (lbrace :: (ds ++ [rbrace]))) ++
        processComment post (some args) := by
  refine ⟨rfl, rfl, ?_⟩
  rw [processCommentSome _ args hargs, processCommentSome post args hargs]
  have hX : (pre ++ String.mk (lbrace :: (ds ++ [rbrace])) ++ post).data =
      pre.data ++ lbrace :: (ds ++ rbrace :: post.data) := by
    show pre.data ++ (lbrace :: (ds ++ [rbrace])) ++ post.data = _
    simp
  generalize hM2 : (match jsIndex args ((parseDigits ds : Int) - 1) with
      | some a => a
      | none => String.mk (lbrace :: (ds ++ [rbrace]))) = M
  have hM : M.data = substFor args ds := by
    rw [← hM2]
    unfold substFor
    cases jsIndex args ((parseDigits ds : Int) - 1) <;> rfl
  apply stringDataInj
  show pcRun args (pre ++ String.mk (lbrace :: (ds ++ [rbrace])) ++ post).data =
    pre.data ++ M.data ++ pcRun args post.data
  rw [hX, pcRunSplit args pre.data ds post.data hpre hne hdig, hM]
  simp

/-- Witness for claim C9: the theorem applied at the concrete comment
`Error \x7b1\x7d happened` with arguments `["X", "Y"]`. -/
theorem c9_process_comment_witness :
    processComment "plain" none = "plain" ∧
    processComment "plain" (some []) = "plain" ∧
    processComment ("Error " ++ String.mk (lbrace :: (['1'] ++ [rbrace])) ++
        " happened") (some ["X", "Y"]) =
      "Error " ++ (match jsIndex ["X", "Y"] ((parseDigits ['1'] : Int) - 1) with
              | some a => a
              | none => String.mk (lbrace :: (['1'] ++ [rbrace]))) ++
        processComment " happened" (some ["X", "Y"]) :=
  c9_process_comment "plain" "Error " " happened" ['1'] ["X", "Y"]
    (by decide) (by decide) (by decide) (by decide)
